import Mathlib

/-!
Verification of the DocuMind backend against its natural-language specification.

The relevant Python modules are shallowly embedded as executable Lean
definitions:

* `backend/app/services/custom_rag.py` — the `CustomVectorDB` vector store
  (`add_document`, `search`);
* `backend/app/core/semantic_cache.py` — `SemanticCache.set` and its
  in-memory backend, together with the cache-save step of
  `CachedRAGSystem.answer` (`backend/app/services/cached_rag.py`);
* `backend/app/core/database.py` — the SQLite connection pool pragmas,
  `delete_conversation` and `add_message`;
* `backend/app/core/rate_limiting.py` — `RateLimiter.check_rate_limit`;
* `backend/app/core/main.py` — `sanitize_error_message` and the
  message-persistence step of `send_message`.

Machine floats are modelled as rationals; where a quantity is irrational in
the source (the Euclidean norm used for cosine similarity) the embedding is
parametrised by the norm function, and every theorem that does not depend on
its value quantifies over it.  Wall-clock instants (`datetime.now()`,
`time.time()`) are explicit integer parameters.
-/

namespace DocuMind

/-! ## Vector store — `CustomVectorDB` in `custom_rag.py`

A `Chunk` is a row of the `chunks` table: autoincrement `id`, owning
`document_id`, nullable `conversation_id`, text, index within the document,
and the stored embedding.  `VectorDB.chunks` is kept in rowid (insertion)
order, which is the order the `SELECT` of `search` yields rows in. -/

structure Chunk where
  id : Nat
  documentId : Nat
  conversationId : Option Int
  chunkText : String
  chunkIndex : Nat
  embedding : List ℚ
deriving DecidableEq

/-- A row of the `documents` table. -/
structure DocRow where
  id : Nat
  filename : String
  fileHash : String
deriving DecidableEq

/-- State of the SQLite file backing `CustomVectorDB`.  `nextDocId` and
`nextChunkId` model the AUTOINCREMENT counters (starting at 1). -/
structure VectorDB where
  documents : List DocRow
  chunks : List Chunk
  nextDocId : Nat
  nextChunkId : Nat
deriving DecidableEq

/-- A fresh `custom_rag.db` after `_init_db`. -/
def emptyVectorDB : VectorDB := ⟨[], [], 1, 1⟩

/-- The `hashlib.md5(filename.encode()).hexdigest()` fingerprint of
`add_document`.  Only equality of digests is ever used, so the digest is
modelled as the filename itself (md5 is treated as injective here). -/
def md5Hex (s : String) : String := s

/-- `CustomVectorDB.add_document` (custom_rag.py, lines 330-380): insert the
document row (`INSERT OR REPLACE` keyed on the file hash, yielding a fresh
autoincrement rowid) and bulk-insert one chunk row per (chunk, embedding)
pair — `zip` truncates to the shorter list — each carrying the given
`conversation_id` unchanged (possibly null).  Returns the new document id.
The Python raises only if SQLite itself errors; there is no argument
validation, so the embedding is total. -/
def addDocument (db : VectorDB) (filename : String) (chunks : List String)
    (embeddings : List (List ℚ)) (conversationId : Option Int) : Nat × VectorDB :=
  let fileHash := md5Hex filename
  let docId := db.nextDocId
  let docs := db.documents.filter (fun d => d.fileHash != fileHash) ++ [⟨docId, filename, fileHash⟩]
  let chunkData := (chunks.zip embeddings).enum
  let newChunks := chunkData.map (fun p =>
    { id := db.nextChunkId + p.1, documentId := docId, conversationId := conversationId,
      chunkText := p.2.1, chunkIndex := p.1, embedding := p.2.2 })
  (docId, { documents := docs, chunks := db.chunks ++ newChunks,
            nextDocId := db.nextDocId + 1, nextChunkId := db.nextChunkId + chunkData.length })

/-- `np.dot` on equal-length float vectors (zip truncates, as NumPy would
reject mismatched shapes; all claims use well-formed vectors). -/
def dotProduct (a b : List ℚ) : ℚ := ((a.zip b).map (fun p => p.1 * p.2)).sum

/-- The `1e-8` divide-by-zero guard of `search`. -/
def eps : ℚ := 1 / 100000000

/-- Cosine similarity as computed in `search`:
`np.dot(emb, query) / (norm(emb) * norm(query) + 1e-8)`.  The Euclidean norm
is irrational in general, so it is an explicit parameter `normQ`. -/
def cosineSim (normQ : List ℚ → ℚ) (emb query : List ℚ) : ℚ :=
  dotProduct emb query / (normQ emb * normQ query + eps)

/-- A concrete stand-in for `np.linalg.norm` used to instantiate closed
statements: the sum of squares.  The selection and ordering facts proved
below hold for every norm function; only similarity *values* depend on it,
and the closed statements below use chunks with identical embeddings, whose
similarities coincide under any norm. -/
def sumSquares (v : List ℚ) : ℚ := (v.map (fun x => x * x)).sum

/-- `CustomVectorDB.search` (custom_rag.py, lines 382-452), kept at the level
of (chunk row, similarity) pairs; the Python returns the
`(chunk_text, similarity)` projection, see `search` below.

* `conversation_id = None` returns `[]` before any row is read.
* Otherwise rows are loaded by
  `WHERE conversation_id = ? AND conversation_id IS NOT NULL LIMIT ?` with
  `limit = min(500, max(top_k * 50, 100))`; the index scan yields rows in
  ascending rowid order, i.e. the stored order of `db.chunks`.
* `np.argsort` ascending followed by `[::-1]`, modelled by
  `List.insertionSort` on the similarity key (stable ascending), then
  reversed.  NumPy's default sort is an introsort that is *unstable* in
  general and coincides with this stable insertion sort only in its
  small-array regime (in particular on two-element arrays); the model fixes
  one concrete tie order throughout.  Consequently, ordering-sensitive
  statements below are confined to the two-element regime, where model and
  program provably agree; the membership-level statements (C1-C3) hold for
  any selection and tie order and do not depend on this choice.  The
  `argpartition` fast path (more rows than `top_k`) keeps the `top_k` best
  and orders them the same way, modelled as `take topK` of the full
  descending order. -/
def searchScored (normQ : List ℚ → ℚ) (db : VectorDB) (queryEmbedding : List ℚ)
    (topK : Nat) (conversationId : Option Int) : List (Chunk × ℚ) :=
  match conversationId with
  | none => []
  | some c =>
    let limit := min 500 (max (topK * 50) 100)
    let rows := (db.chunks.filter (fun ch => ch.conversationId == some c)).take limit
    if rows = [] then []
    else
      let scored := rows.map (fun ch => (ch, cosineSim normQ ch.embedding queryEmbedding))
      let descending := (scored.insertionSort (fun a b => a.2 ≤ b.2)).reverse
      if scored.length > topK then descending.take topK else descending

/-- `CustomVectorDB.search` as the Python returns it: `(chunk_text, score)`
pairs. -/
def search (normQ : List ℚ → ℚ) (db : VectorDB) (queryEmbedding : List ℚ)
    (topK : Nat) (conversationId : Option Int) : List (String × ℚ) :=
  (searchScored normQ db queryEmbedding topK conversationId).map (fun p => (p.1.chunkText, p.2))

/-- Every result of `searchScored` is a stored chunk whose `conversation_id`
equals the (non-null) id supplied to the query. -/
lemma mem_searchScored {normQ : List ℚ → ℚ} {db : VectorDB} {q : List ℚ}
    {topK : Nat} {cid : Option Int} {p : Chunk × ℚ}
    (hp : p ∈ searchScored normQ db q topK cid) :
    ∃ c, cid = some c ∧ p.1 ∈ db.chunks ∧ p.1.conversationId = some c := by
  cases cid with
  | none => simp [searchScored] at hp
  | some c =>
    refine ⟨c, rfl, ?_⟩
    simp only [searchScored] at hp
    by_cases hempty : ((db.chunks.filter (fun ch => ch.conversationId == some c)).take
        (min 500 (max (topK * 50) 100))) = []
    · rw [if_pos hempty] at hp
      exact absurd hp (List.not_mem_nil p)
    · rw [if_neg hempty] at hp
      set rows := (db.chunks.filter (fun ch => ch.conversationId == some c)).take
        (min 500 (max (topK * 50) 100)) with hrows
      have hmem : p ∈ (rows.map (fun ch => (ch, cosineSim normQ ch.embedding q))) := by
        by_cases hlen : (rows.map (fun ch => (ch, cosineSim normQ ch.embedding q))).length > topK
        · rw [if_pos hlen] at hp
          have h1 := List.mem_of_mem_take hp
          have h2 := List.mem_reverse.mp h1
          exact (List.mem_insertionSort _).mp h2
        · rw [if_neg hlen] at hp
          have h2 := List.mem_reverse.mp hp
          exact (List.mem_insertionSort _).mp h2
      rcases List.mem_map.mp hmem with ⟨ch, hch, hpe⟩
      have hfilter : ch ∈ db.chunks.filter (fun ch => ch.conversationId == some c) :=
        List.mem_of_mem_take hch
      have hsplit := List.mem_filter.mp hfilter
      refine ⟨?_, ?_⟩
      · rw [← hpe]; exact hsplit.1
      · rw [← hpe]; exact eq_of_beq hsplit.2

/-- Behaviour of `searchScored` on a store holding exactly two chunks of the
queried conversation with equal similarity and `top_k ≥ 2`: the stable
ascending sort keeps insertion order, the reversal inverts it, so the later
row comes out first.  Shared computation lemma behind the statements about
tie-breaking. -/
lemma searchScored_pair_tie (normQ : List ℚ → ℚ) (docs : List DocRow)
    (nd nc : Nat) (c1 c2 : Chunk) (q : List ℚ) (topK : Nat) (cid : Int)
    (h1 : c1.conversationId = some cid) (h2 : c2.conversationId = some cid)
    (hk : 2 ≤ topK)
    (hsim : cosineSim normQ c1.embedding q = cosineSim normQ c2.embedding q) :
    searchScored normQ ⟨docs, [c1, c2], nd, nc⟩ q topK (some cid) =
      [(c2, cosineSim normQ c2.embedding q), (c1, cosineSim normQ c1.embedding q)] := by
  have hfilter : ([c1, c2].filter (fun ch => ch.conversationId == some cid)) = [c1, c2] := by
    simp [List.filter, h1, h2]
  have hlimit : 2 ≤ min 500 (max (topK * 50) 100) := by
    have h100 : (100 : Nat) ≤ max (topK * 50) 100 := le_max_right _ _
    omega
  unfold searchScored
  simp only [hfilter]
  rw [List.take_of_length_le (by simp only [List.length_cons, List.length_nil]; omega)]
  have hne : ([c1, c2] : List Chunk) ≠ [] := by simp
  rw [if_neg hne]
  simp only [List.map_cons, List.map_nil]
  rw [hsim]
  have hsort : (([(c1, cosineSim normQ c2.embedding q),
      (c2, cosineSim normQ c2.embedding q)] : List (Chunk × ℚ)).insertionSort
        (fun a b => a.2 ≤ b.2)) =
      [(c1, cosineSim normQ c2.embedding q), (c2, cosineSim normQ c2.embedding q)] := by
    simp [List.insertionSort, List.orderedInsert]
  rw [hsort]
  have hlen : ¬ (([(c1, cosineSim normQ c2.embedding q),
      (c2, cosineSim normQ c2.embedding q)] : List (Chunk × ℚ)).length > topK) := by
    simp only [List.length_cons, List.length_nil]
    omega
  rw [if_neg hlen]
  simp [hsim]

/-- Claim C1: for every vector store, query embedding, `top_k` and non-null
conversation id `c`, `CustomVectorDB.search(..., conversation_id = c)`
returns only chunks stored under `conversation_id = c`; chunks of other
conversations and orphan (null) chunks are never returned, irrespective of
similarity (the statement quantifies over the norm function, hence over any
similarity values). -/
theorem search_session_isolation (normQ : List ℚ → ℚ) (db : VectorDB)
    (q : List ℚ) (topK : Nat) (c : Int) (p : Chunk × ℚ)
    (hp : p ∈ searchScored normQ db q topK (some c)) :
    p.1 ∈ db.chunks ∧ p.1.conversationId = some c := by
  rcases mem_searchScored hp with ⟨c', hc', hmem, hconv⟩
  obtain rfl : c' = c := by injection hc' with h; exact h.symm
  exact ⟨hmem, hconv⟩

/-- A two-chunk store used to instantiate closed statements: chunk 1
("alpha") and chunk 2 ("beta") both belong to conversation 1 and carry the
same embedding `[1]`. -/
def vdbTie : VectorDB :=
  ⟨[⟨1, "t.pdf", "t.pdf"⟩],
   [⟨1, 1, some 1, "alpha", 0, [1]⟩, ⟨2, 1, some 1, "beta", 1, [1]⟩], 2, 3⟩

/-- Witness for C1: a concrete search result of `vdbTie` is a stored chunk of
conversation 1. -/
theorem search_session_isolation_witness :
    (⟨2, 1, some 1, "beta", 1, [1]⟩ : Chunk) ∈ vdbTie.chunks ∧
      (⟨2, 1, some 1, "beta", 1, [1]⟩ : Chunk).conversationId = some 1 :=
  search_session_isolation sumSquares vdbTie [1] 5 1
    (⟨2, 1, some 1, "beta", 1, [1]⟩, cosineSim sumSquares [1] [1])
    (by
      have h := searchScored_pair_tie sumSquares [⟨1, "t.pdf", "t.pdf"⟩] 2 3
        ⟨1, 1, some 1, "alpha", 0, [1]⟩ ⟨2, 1, some 1, "beta", 1, [1]⟩ [1] 5 1
        rfl rfl (by omega) rfl
      have hv : searchScored sumSquares vdbTie [1] 5 (some 1) = _ := h
      rw [hv]
      exact List.mem_cons_self _ _)

/-- Claim C2: a search without a `conversation_id` returns the empty list,
whatever the stored chunks, the query and `top_k` are.  (The Python returns
`[]` before fetching a single row.) -/
theorem search_null_conversation_empty (normQ : List ℚ → ℚ) (db : VectorDB)
    (q : List ℚ) (topK : Nat) :
    search normQ db q topK none = [] := rfl

/-- Counterexample to claim C3: `add_document` called without a
`conversation_id` does *not* fail — it returns a fresh document id and
inserts the chunk with a null `conversation_id`. -/
theorem addDocument_null_accepted :
    (addDocument emptyVectorDB "doc.pdf" ["chunk text"] [[1]] none).1 = 1 ∧
      ((addDocument emptyVectorDB "doc.pdf" ["chunk text"] [[1]] none).2.chunks.map
        Chunk.conversationId) = [none] := by decide

/-- Claim C3 as amended: `add_document` accepts a null `conversation_id` and
stores the chunks with `conversation_id = NULL` (the non-null binding is
enforced one layer up, at the upload endpoint); such orphan chunks are
invisible to `search` — every chunk a search can return carries the non-null
conversation id of the query. -/
theorem addDocument_null_orphan (db : VectorDB) (fn : String) (cs : List String)
    (es : List (List ℚ)) :
    (∀ ch ∈ (addDocument db fn cs es none).2.chunks,
        ch ∈ db.chunks ∨ ch.conversationId = none) ∧
    (∀ (normQ : List ℚ → ℚ) (q : List ℚ) (k : Nat) (cid : Option Int) (p : Chunk × ℚ),
        p ∈ searchScored normQ (addDocument db fn cs es none).2 q k cid →
        p.1.conversationId ≠ none) := by
  constructor
  · intro ch hch
    simp only [addDocument, List.mem_append] at hch
    rcases hch with h | h
    · exact Or.inl h
    · rcases List.mem_map.mp h with ⟨p, _, hpe⟩
      exact Or.inr (by rw [← hpe])
  · intro normQ q k cid p hp
    rcases mem_searchScored hp with ⟨c, _, _, hconv⟩
    rw [hconv]
    exact Option.noConfusion

/-- A two-chunk store bound to conversation 7, used to instantiate the second
conjunct of the amended C3. -/
def vdbC3 : VectorDB :=
  ⟨[], [⟨1, 1, some 7, "x", 0, [1]⟩, ⟨2, 1, some 7, "y", 1, [1]⟩], 2, 3⟩

/-- Witness for the amended C3: concrete instantiations of both conjuncts. -/
theorem addDocument_null_orphan_witness :
    ((⟨1, 1, none, "chunk text", 0, [1]⟩ : Chunk) ∈ emptyVectorDB.chunks ∨
      (⟨1, 1, none, "chunk text", 0, [1]⟩ : Chunk).conversationId = none) ∧
    ((⟨2, 1, some 7, "y", 1, [1]⟩ : Chunk) : Chunk).conversationId ≠ none := by
  constructor
  · exact (addDocument_null_orphan emptyVectorDB "doc.pdf" ["chunk text"] [[1]]).1
      ⟨1, 1, none, "chunk text", 0, [1]⟩ (by decide)
  · exact (addDocument_null_orphan vdbC3 "other.pdf" [] []).2 sumSquares [1] 5 (some 7)
      (⟨2, 1, some 7, "y", 1, [1]⟩, cosineSim sumSquares [1] [1])
      (by
        have h := searchScored_pair_tie sumSquares [⟨2, "other.pdf", "other.pdf"⟩] 3 3
          ⟨1, 1, some 7, "x", 0, [1]⟩ ⟨2, 1, some 7, "y", 1, [1]⟩ [1] 5 7
          rfl rfl (by omega) rfl
        have hv : searchScored sumSquares (addDocument vdbC3 "other.pdf" [] [] none).2
            [1] 5 (some 7) = _ := h
        rw [hv]
        exact List.mem_cons_self _ _)

/-- Counterexample to claim C9: two chunks of the same conversation with
byte-identical embeddings have exactly equal cosine similarity, yet `search`
returns the *later*-inserted chunk (higher id) first — the ascending argsort
followed by `[::-1]` reverses insertion order among ties.  On a two-element
array NumPy's sort is its stable insertion sort, so this output is the
determined behaviour of the program, not a modelling artifact. -/
theorem search_tie_counterexample :
    (search sumSquares vdbTie [1] 5 (some 1)).map Prod.fst = ["beta", "alpha"] ∧
      (search sumSquares vdbTie [1] 5 (some 1)).map Prod.snd =
        [cosineSim sumSquares [1] [1], cosineSim sumSquares [1] [1]] := by
  have h := searchScored_pair_tie sumSquares [⟨1, "t.pdf", "t.pdf"⟩] 2 3
    ⟨1, 1, some 1, "alpha", 0, [1]⟩ ⟨2, 1, some 1, "beta", 1, [1]⟩ [1] 5 1
    rfl rfl (by omega) rfl
  have hv : searchScored sumSquares vdbTie [1] 5 (some 1) = _ := h
  constructor <;> simp [search, hv]

/-- Claim C9 as amended: the code implements no earlier-insertion tie-break
at all.  In the one regime where NumPy's sort order on ties is determined —
a two-element similarity array, which the default introsort handles with its
stable insertion sort — the chunk inserted *later* (higher chunk id, later
row) is ranked first, because the ascending sort keeps insertion order among
ties and the `[::-1]` reversal inverts it; at larger loads the default
quicksort leaves the tie order unspecified.  Stated exactly for that
determined regime: a store whose loaded rows are the two tied chunks, with
`top_k ≥ 2` (the full-sort branch), for every norm function. -/
theorem search_tie_later_first (normQ : List ℚ → ℚ) (docs : List DocRow)
    (nd nc : Nat) (c1 c2 : Chunk) (q : List ℚ) (topK : Nat) (cid : Int)
    (h1 : c1.conversationId = some cid) (h2 : c2.conversationId = some cid)
    (hk : 2 ≤ topK)
    (hsim : cosineSim normQ c1.embedding q = cosineSim normQ c2.embedding q) :
    searchScored normQ ⟨docs, [c1, c2], nd, nc⟩ q topK (some cid) =
      [(c2, cosineSim normQ c2.embedding q), (c1, cosineSim normQ c1.embedding q)] :=
  searchScored_pair_tie normQ docs nd nc c1 c2 q topK cid h1 h2 hk hsim

/-- Witness for the amended C9: the concrete tied store of
`search_tie_counterexample`, derived by applying the theorem. -/
theorem search_tie_later_first_witness :
    searchScored sumSquares vdbTie [1] 5 (some 1) =
      [(⟨2, 1, some 1, "beta", 1, [1]⟩, cosineSim sumSquares [1] [1]),
       (⟨1, 1, some 1, "alpha", 0, [1]⟩, cosineSim sumSquares [1] [1])] :=
  search_tie_later_first sumSquares [⟨1, "t.pdf", "t.pdf"⟩] 2 3
    ⟨1, 1, some 1, "alpha", 0, [1]⟩ ⟨2, 1, some 1, "beta", 1, [1]⟩ [1] 5 1
    rfl rfl (by decide) rfl

/-! ## Semantic cache — `SemanticCache` in `semantic_cache.py`

The deployment without a Redis client (`get_redis_client()` returns `None`)
is modelled: `set` then goes through `_add_to_memory_cache` and the state is
the `memory_cache` list.  The Redis branch mirrors the same entry verbatim
into Redis, so the claims about *what* is stored are unaffected.  The
hit/miss counters are logging-only and are not part of the model. -/

/-- One cached QA entry, the dict built at the top of `SemanticCache.set`.
`createdAt` is the `time.time()` instant, passed in explicitly. -/
structure CacheEntry where
  embedding : List ℚ
  question : String
  answer : String
  metadata : List (String × String)
  createdAt : Int
deriving DecidableEq

/-- The mutable state of a `SemanticCache` (memory backend). -/
structure SemanticCache where
  similarityThreshold : ℚ
  ttl : Int
  maxCacheSize : Nat
  memoryCache : List CacheEntry
deriving DecidableEq

/-- The module-level `semantic_cache` instance (threshold 0.95, ttl 3600,
max 1000 entries), freshly constructed. -/
def semanticCacheInit : SemanticCache := ⟨95 / 100, 3600, 1000, []⟩

/-- `SemanticCache._add_to_memory_cache`: when the cache is full, drop the
oldest `max(1, max_cache_size // 10)` entries, then append. -/
def addToMemoryCache (c : SemanticCache) (e : CacheEntry) : SemanticCache :=
  if c.memoryCache.length ≥ c.maxCacheSize then
    { c with memoryCache := c.memoryCache.drop (max 1 (c.maxCacheSize / 10)) ++ [e] }
  else
    { c with memoryCache := c.memoryCache ++ [e] }

/-- `SemanticCache.set` (semantic_cache.py, lines 143-190), memory backend:
build the entry — `metadata or {}` turns an absent metadata into `{}` — and
store it.  There is no guard on `answer`: the entry is stored verbatim
whatever the answer is. -/
def setCache (c : SemanticCache) (questionEmbedding : List ℚ)
    (questionText answer : String) (metadata : Option (List (String × String)))
    (now : Int) : SemanticCache :=
  addToMemoryCache c
    { embedding := questionEmbedding, question := questionText, answer := answer,
      metadata := metadata.getD [], createdAt := now }

/-- The cache-save step of `CachedRAGSystem.answer`
(cached_rag.py, lines 133-149): `set` is called only when
`save_to_cache and self.enable_cache and answer` — in particular only when
the generated answer is a non-empty string. -/
def answerSaveToCache (c : SemanticCache) (queryEmbedding : List ℚ)
    (query answer : String) (saveToCache enableCache : Bool)
    (conversationId : Option Int) (model : String) (contextCount : Nat)
    (now : Int) : SemanticCache :=
  if saveToCache && enableCache && answer ≠ "" then
    setCache c queryEmbedding query answer
      (some [("conversation_id", match conversationId with
                | some i => toString i
                | none => "None"),
             ("model", model),
             ("context_count", toString contextCount)]) now
  else c

/-- Counterexample to claim C4: `SemanticCache.set` with an empty answer is
*not* a no-op — on the fresh module-level cache it stores an entry whose
answer is the empty string. -/
theorem setCache_empty_answer_stored :
    (setCache semanticCacheInit [1] "q" "" none 0).memoryCache.map CacheEntry.answer
      = [""] := by
  simp [setCache, addToMemoryCache, semanticCacheInit]

/-- Claim C4 as amended: `SemanticCache.set` itself stores the entry
unconditionally, even for an empty answer; the no-op guard lives in the
caller — the save step of `CachedRAGSystem.answer` invokes `set` only for a
non-empty answer, so it leaves the cache unchanged when the answer is empty,
and every entry it ever adds carries exactly the non-empty generated
answer. -/
theorem answerSaveToCache_guard (c : SemanticCache) (emb : List ℚ)
    (query answer : String) (saveToCache enableCache : Bool)
    (cid : Option Int) (model : String) (cc : Nat) (now : Int) :
    (answer = "" →
      answerSaveToCache c emb query answer saveToCache enableCache cid model cc now = c) ∧
    (∀ e ∈ (answerSaveToCache c emb query answer saveToCache enableCache cid model cc
        now).memoryCache, e ∈ c.memoryCache ∨ e.answer = answer) := by
  constructor
  · intro ha
    simp [answerSaveToCache, ha]
  · intro e he
    unfold answerSaveToCache at he
    by_cases hcond : (saveToCache && enableCache && answer ≠ "") = true
    · rw [if_pos hcond] at he
      unfold setCache addToMemoryCache at he
      by_cases hfull : c.memoryCache.length ≥ c.maxCacheSize
      · rw [if_pos hfull] at he
        simp only [List.mem_append, List.mem_singleton] at he
        rcases he with h | h
        · exact Or.inl (List.mem_of_mem_drop h)
        · exact Or.inr (by rw [h])
      · rw [if_neg hfull] at he
        simp only [List.mem_append, List.mem_singleton] at he
        rcases he with h | h
        · exact Or.inl h
        · exact Or.inr (by rw [h])
    · rw [if_neg hcond] at he
      exact Or.inl he

/-- Witness for the amended C4: concrete instantiations of both conjuncts —
the pipeline with an empty answer leaves the fresh cache unchanged, and an
entry added for the non-empty answer "a" carries "a". -/
theorem answerSaveToCache_guard_witness :
    (answerSaveToCache semanticCacheInit [1] "q" "" true true (some 1) "gpt-4-turbo" 0 0
        = semanticCacheInit) ∧
    ((⟨[1], "q", "a", [("conversation_id", "1"), ("model", "gpt-4-turbo"),
        ("context_count", "0")], 0⟩ : CacheEntry) ∈ semanticCacheInit.memoryCache ∨
      (⟨[1], "q", "a", [("conversation_id", "1"), ("model", "gpt-4-turbo"),
        ("context_count", "0")], 0⟩ : CacheEntry).answer = "a") := by
  constructor
  · exact (answerSaveToCache_guard semanticCacheInit [1] "q" "" true true (some 1)
      "gpt-4-turbo" 0 0).1 rfl
  · exact (answerSaveToCache_guard semanticCacheInit [1] "q" "a" true true (some 1)
      "gpt-4-turbo" 0 0).2 _ (by decide)

/-! ## Relational store — `database.py`

`users.db` rows relevant to the claims.  `updatedAt` counts
`CURRENT_TIMESTAMP` refreshes (a logical clock: only "bumped how many times"
matters to the claims). -/

/-- A row of the `conversations` table. -/
structure ConvRow where
  id : Nat
  userId : Nat
  title : String
  updatedAt : Nat
deriving DecidableEq

/-- A row of the `messages` table. -/
structure MsgRow where
  id : Nat
  conversationId : Nat
  role : String
  content : String
deriving DecidableEq

/-- The `users.db` state as the claims need it. -/
structure ChatDB where
  conversations : List ConvRow
  messages : List MsgRow
  nextMsgId : Nat
deriving DecidableEq

/-- The four PRAGMA statements executed on every pooled connection at
creation (`SQLiteConnectionPool.__init__`, database.py lines 31-39).  This
is the complete list from the source: no `foreign_keys` pragma is among
them. -/
def poolConnectionPragmas : List String :=
  ["journal_mode=WAL", "synchronous=NORMAL", "cache_size=-64000", "temp_store=MEMORY"]

/-- Whether the pooled connections enable SQLite foreign-key enforcement.
SQLite defaults to OFF, so enforcement holds iff `PRAGMA foreign_keys=ON`
is executed on the connection. -/
def poolForeignKeysOn : Bool :=
  poolConnectionPragmas.any (fun s => s == "foreign_keys=ON")

/-- `delete_conversation` (database.py, lines 321-336) under SQLite
semantics: the `DELETE ... WHERE id = ? AND user_id = ?` removes the
matching conversation rows; the declared `ON DELETE CASCADE` on
`messages.conversation_id` removes the conversation's messages *only if*
the connection has foreign-key enforcement on.  Returns
`cursor.rowcount > 0`. -/
def deleteConversation (fkOn : Bool) (db : ChatDB) (cid uid : Nat) : Bool × ChatDB :=
  let deletedIds := (db.conversations.filter (fun c => c.id == cid && c.userId == uid)).map
    (fun c => c.id)
  let convs := db.conversations.filter (fun c => !(c.id == cid && c.userId == uid))
  let msgs := if fkOn then db.messages.filter (fun m => !(deletedIds.contains m.conversationId))
              else db.messages
  (!deletedIds.isEmpty, { db with conversations := convs, messages := msgs })

/-- Claim C5, evaluated at the failing input: the pooled connections never
execute `PRAGMA foreign_keys=ON` (`poolForeignKeysOn = false`), so deleting
conversation 1 of user 1 succeeds and removes the conversation row, but its
message row survives — the cascade the claim (and the spec) promises does
not happen. -/
theorem deleteConversation_no_cascade :
    poolForeignKeysOn = false ∧
    (deleteConversation poolForeignKeysOn
        ⟨[⟨1, 1, "t", 0⟩], [⟨1, 1, "user", "hi"⟩], 2⟩ 1 1).1 = true ∧
    (deleteConversation poolForeignKeysOn
        ⟨[⟨1, 1, "t", 0⟩], [⟨1, 1, "user", "hi"⟩], 2⟩ 1 1).2.conversations = [] ∧
    (deleteConversation poolForeignKeysOn
        ⟨[⟨1, 1, "t", 0⟩], [⟨1, 1, "user", "hi"⟩], 2⟩ 1 1).2.messages
      = [⟨1, 1, "user", "hi"⟩] := by decide

/-- The `UPDATE conversations SET updated_at = CURRENT_TIMESTAMP WHERE id = ?`
statement: one refresh of the matching conversation's logical clock. -/
def bumpUpdatedAt (convs : List ConvRow) (cid : Nat) : List ConvRow :=
  convs.map (fun c => if c.id = cid then { c with updatedAt := c.updatedAt + 1 } else c)

/-- `add_message` (database.py, lines 357-370): one pooled transaction that
inserts the message row and refreshes the parent conversation's
`updated_at`; the context manager commits both together on exit. -/
def addMessage (db : ChatDB) (cid : Nat) (role content : String) : Nat × ChatDB :=
  let newRow : MsgRow := ⟨db.nextMsgId, cid, role, content⟩
  let db1 : ChatDB := ⟨db.conversations, db.messages ++ [newRow], db.nextMsgId + 1⟩
  let db2 : ChatDB := ⟨bumpUpdatedAt db1.conversations cid, db1.messages, db1.nextMsgId⟩
  (db.nextMsgId, db2)

/-- The persistence step of `send_message` (main.py, lines 1483-1511) for an
existing, ownership-verified conversation: two *separate* `add_message`
calls — one per transaction. -/
def persistMessagePair (db : ChatDB) (cid : Nat) (userContent aiResponse : String) : ChatDB :=
  let db1 := (addMessage db cid "user" userContent).2
  (addMessage db1 cid "assistant" aiResponse).2

/-- The state left behind when execution is interrupted between the two
`add_message` transactions of `send_message`: the first has already
committed. -/
def persistMessagePairCrashed (db : ChatDB) (cid : Nat) (userContent : String) : ChatDB :=
  (addMessage db cid "user" userContent).2

/-- Counterexample to claim C8: on success the parent conversation's
`updated_at` is refreshed twice (once per `add_message` transaction), not
exactly once; and an interruption between the two transactions leaves the
user message (with one `updated_at` bump) committed, not "neither
message". -/
theorem persistMessagePair_two_transactions :
    ((persistMessagePair ⟨[⟨1, 1, "t", 0⟩], [], 1⟩ 1 "hi" "hello").conversations.map
        ConvRow.updatedAt = [2]) ∧
    ((persistMessagePairCrashed ⟨[⟨1, 1, "t", 0⟩], [], 1⟩ 1 "hi").messages.map
        MsgRow.content = ["hi"]) ∧
    ((persistMessagePairCrashed ⟨[⟨1, 1, "t", 0⟩], [], 1⟩ 1 "hi").conversations.map
        ConvRow.updatedAt = [1]) := by decide

/-- Claim C8 as amended: each chat message is persisted in its *own*
transaction.  `add_message` atomically pairs one insert with one
`updated_at` refresh; `send_message` runs two such transactions in
sequence, so on success both rows are appended and `updated_at` is bumped
exactly twice, while an interruption between the transactions leaves
exactly the committed user message and a single bump. -/
theorem persistMessagePair_spec (db : ChatDB) (cid : Nat) (u a : String) :
    ((persistMessagePair db cid u a).messages
        = db.messages ++ [⟨db.nextMsgId, cid, "user", u⟩,
                          ⟨db.nextMsgId + 1, cid, "assistant", a⟩]) ∧
    ((persistMessagePair db cid u a).conversations
        = db.conversations.map
            (fun c => if c.id = cid then { c with updatedAt := c.updatedAt + 2 } else c)) ∧
    ((persistMessagePairCrashed db cid u).messages
        = db.messages ++ [⟨db.nextMsgId, cid, "user", u⟩]) ∧
    ((persistMessagePairCrashed db cid u).conversations
        = db.conversations.map
            (fun c => if c.id = cid then { c with updatedAt := c.updatedAt + 1 } else c)) := by
  refine ⟨?_, ?_, rfl, rfl⟩
  · simp [persistMessagePair, addMessage]
  · simp only [persistMessagePair, addMessage, bumpUpdatedAt, List.map_map]
    apply List.map_congr_left
    intro c _
    by_cases hc : c.id = cid
    · simp [Function.comp, hc]
    · simp [Function.comp, hc]

/-! ## Rate limiter — `RateLimiter` in `rate_limiting.py`

State: `request_counts` (a `defaultdict(list)` of timestamp lists keyed by
`"user:operation"` strings), the `limits` table and the `blacklist`, all as
association lists.  Instants are integer seconds; `datetime.now()` is the
explicit `now` argument.  The formatted denial strings are represented by
their numeric payload: an allowed call carries `none`, a denial carries
`some retryValue` (the `remaining`/`retry_after` number interpolated into
the message).  `check_rate_limit` returns `none` exactly where the Python
raises — the `IndexError` of `self.request_counts[key][0]` on an empty
pruned window. -/

/-- `timedelta(seconds = d).seconds`: the seconds component after
normalisation into days/seconds/microseconds, i.e. `d mod 86400` in
`[0, 86400)`. -/
def pySeconds (d : Int) : Int := d % 86400

/-- Python dict lookup on an association list. -/
def lookupA {α : Type} : List (String × α) → String → Option α
  | [], _ => none
  | p :: ps, k => if p.1 = k then some p.2 else lookupA ps k

/-- Python dict item assignment on an association list. -/
def setA {α : Type} : List (String × α) → String → α → List (String × α)
  | [], k, v => [(k, v)]
  | p :: ps, k, v => if p.1 = k then (k, v) :: ps else p :: setA ps k v

/-- Python `del` on an association list. -/
def removeA {α : Type} : List (String × α) → String → List (String × α)
  | [], _ => []
  | p :: ps, k => if p.1 = k then ps else p :: removeA ps k

/-- The mutable state of a `RateLimiter`. -/
structure RateLimiter where
  requestCounts : List (String × List Int)
  limits : List (String × (Int × Int))
  blacklist : List (String × (Int × String))
deriving DecidableEq

/-- The `self.limits` table from `RateLimiter.__init__`. -/
def defaultLimits : List (String × (Int × Int)) :=
  [("chat", (20, 60)), ("upload", (10, 60)), ("voice", (5, 60)),
   ("login", (5, 300)), ("register", (3, 3600)), ("config_update", (10, 60)),
   ("search", (30, 60)), ("api_default", (100, 60))]

/-- A freshly constructed `RateLimiter` (the module-level `rate_limiter`). -/
def rateLimiterInit : RateLimiter := ⟨[], defaultLimits, []⟩

/-- `self.request_counts[key]` under `defaultdict(list)`: missing keys read
as `[]`. -/
def counts (st : RateLimiter) (key : String) : List Int :=
  (lookupA st.requestCounts key).getD []

/-- `self.limits.get(operation, self.limits["api_default"])`; the
`api_default` entry is present from `__init__` on, its initial value is the
fallback of the model. -/
def lookupLimits (st : RateLimiter) (op : String) : Int × Int :=
  (lookupA st.limits op).getD ((lookupA st.limits "api_default").getD (100, 60))

/-- `self.request_counts[key] = value`. -/
def withCounts (st : RateLimiter) (key : String) (l : List Int) : RateLimiter :=
  ⟨setA st.requestCounts key l, st.limits, st.blacklist⟩

/-- `self.blacklist[user_id] = value`. -/
def withBlacklist (st : RateLimiter) (u : String) (v : Int × String) : RateLimiter :=
  ⟨st.requestCounts, st.limits, setA st.blacklist u v⟩

/-- `RateLimiter._check_blacklist_trigger` (rate_limiting.py, lines
135-163): prune the 10-minute violation window, record this violation, and
blacklist the user for 30 minutes once 5 violations accumulate. -/
def checkBlacklistTrigger (st : RateLimiter) (userId : String) (now : Int) : RateLimiter :=
  let violationKey := userId ++ ":violations"
  let cleaned := (counts st violationKey).filter (fun ts => decide (now - 600 < ts))
  let recorded := cleaned ++ [now]
  let st1 := withCounts st violationKey recorded
  if recorded.length ≥ 5 then
    withBlacklist st1 userId (now + 1800,
      "Excessive rate limit violations (" ++ toString recorded.length ++ " times)")
  else st1

/-- Steps 2-7 of `RateLimiter.check_rate_limit` (after the blacklist check):
prune the sliding window, compare `current_count + cost` against the limit,
record the request `cost` times when allowed.  In the denied branch the
Python reads `self.request_counts[key][0]`; on an empty pruned list that
raises `IndexError`, modelled as `none`. -/
def checkRateLimitBody (st : RateLimiter) (userId operation : String)
    (cost now : Int) : Option ((Bool × Option Int) × RateLimiter) :=
  let lim := lookupLimits st operation
  let key := userId ++ ":" ++ operation
  let cleaned := (counts st key).filter (fun ts => decide (now - lim.2 < ts))
  let st1 := withCounts st key cleaned
  if (cleaned.length : Int) + cost > lim.1 then
    match cleaned with
    | [] => none
    | ts0 :: _ =>
      some ((false, some (lim.2 - pySeconds (now - ts0))), checkBlacklistTrigger st1 userId now)
  else
    some ((true, none), withCounts st1 key (cleaned ++ List.replicate cost.toNat now))

/-- `RateLimiter.check_rate_limit` (rate_limiting.py, lines 52-133): the
blacklist gate — an active entry denies with the remaining block time, an
expired one is dropped — followed by the sliding-window body. -/
def checkRateLimit (st : RateLimiter) (userId operation : String)
    (cost now : Int) : Option ((Bool × Option Int) × RateLimiter) :=
  match lookupA st.blacklist userId with
  | some bl =>
    if now < bl.1 then
      some ((false, some (pySeconds (bl.1 - now))), st)
    else
      checkRateLimitBody ⟨st.requestCounts, st.limits, removeA st.blacklist userId⟩
        userId operation cost now
  | none => checkRateLimitBody st userId operation cost now

/-- The `k+1`-st result in a sequence of unit-cost `check_rate_limit` calls
at instants `t 0, t 1, …`, each call run on the state the previous one
produced; a raise aborts the sequence. -/
def callsFrom (st : RateLimiter) (u op : String) (t : Nat → Int) :
    Nat → Option ((Bool × Option Int) × RateLimiter)
  | 0 => checkRateLimit st u op 1 (t 0)
  | k + 1 =>
    match callsFrom st u op t k with
    | some r => checkRateLimit r.2 u op 1 (t (k + 1))
    | none => none

lemma lookupA_setA_self {α : Type} (m : List (String × α)) (k : String) (v : α) :
    lookupA (setA m k v) k = some v := by
  induction m with
  | nil => simp [setA, lookupA]
  | cons p ps ih =>
    by_cases h : p.1 = k
    · simp [setA, lookupA, h]
    · simp [setA, lookupA, h, ih]

lemma setA_setA {α : Type} (m : List (String × α)) (k : String) (v w : α) :
    setA (setA m k v) k w = setA m k w := by
  induction m with
  | nil => simp [setA]
  | cons p ps ih =>
    by_cases h : p.1 = k
    · simp [setA, h]
    · simp [setA, h, ih]

lemma counts_withCounts_self (st : RateLimiter) (key : String) (l : List Int) :
    counts (withCounts st key l) key = l := by
  simp [counts, withCounts, lookupA_setA_self]

lemma withCounts_withCounts (st : RateLimiter) (key : String) (l l' : List Int) :
    withCounts (withCounts st key l) key l' = withCounts st key l' := by
  simp [withCounts, setA_setA]

lemma pySeconds_nonneg (d : Int) : 0 ≤ pySeconds d :=
  Int.emod_nonneg d (by decide)

/-- One allowed unit-cost call: with limits `(L, W)`, an untouched blacklist
entry, a window `l` that survives pruning and `|l| + 1 ≤ L`, the call is
allowed and appends `now`. -/
lemma checkRateLimit_allowed (st : RateLimiter) (u op : String) (now : Int)
    (L W : Int) (l : List Int)
    (hbl : lookupA st.blacklist u = none)
    (hlim : lookupLimits st op = (L, W))
    (hcounts : counts st (u ++ ":" ++ op) = l)
    (hkeep : ∀ ts ∈ l, now - W < ts)
    (hle : (l.length : Int) + 1 ≤ L) :
    checkRateLimit st u op 1 now =
      some ((true, none), withCounts st (u ++ ":" ++ op) (l ++ [now])) := by
  have hfilter : l.filter (fun ts => decide (now - W < ts)) = l :=
    List.filter_eq_self.mpr (fun a ha => decide_eq_true (hkeep a ha))
  unfold checkRateLimit
  rw [hbl]
  simp only [checkRateLimitBody, hlim, hcounts, hfilter]
  rw [if_neg (by omega)]
  rw [withCounts_withCounts]
  rfl

/-- One denied unit-cost call: a nonempty surviving window of length
reaching the limit denies with
`retry_after = W - (now - window[0]).seconds`. -/
lemma checkRateLimit_denied (st : RateLimiter) (u op : String) (now : Int)
    (L W : Int) (ts0 : Int) (rest : List Int)
    (hbl : lookupA st.blacklist u = none)
    (hlim : lookupLimits st op = (L, W))
    (hcounts : counts st (u ++ ":" ++ op) = ts0 :: rest)
    (hkeep : ∀ ts ∈ ts0 :: rest, now - W < ts)
    (hgt : ((ts0 :: rest).length : Int) + 1 > L) :
    ∃ st', checkRateLimit st u op 1 now =
      some ((false, some (W - pySeconds (now - ts0))), st') := by
  have hfilter : (ts0 :: rest).filter (fun ts => decide (now - W < ts)) = ts0 :: rest :=
    List.filter_eq_self.mpr (fun a ha => decide_eq_true (hkeep a ha))
  refine ⟨checkBlacklistTrigger
    (withCounts st (u ++ ":" ++ op) (ts0 :: rest)) u now, ?_⟩
  unfold checkRateLimit
  rw [hbl]
  simp only [checkRateLimitBody, hlim, hcounts, hfilter]
  rw [if_pos hgt]

/-- After `k + 1` allowed calls from an empty window the state is the
original one with the window key holding exactly `t 0, …, t k`. -/
lemma callsFrom_allowed (st0 : RateLimiter) (u op : String) (t : Nat → Int)
    (L W : Int) (hL : 1 ≤ L)
    (hbl : lookupA st0.blacklist u = none)
    (hlim : lookupLimits st0 op = (L, W))
    (hcounts : counts st0 (u ++ ":" ++ op) = [])
    (hmono : ∀ i j, i ≤ j → j ≤ L.toNat → t i ≤ t j)
    (hwin : t L.toNat - t 0 < W) :
    ∀ k, k < L.toNat →
      callsFrom st0 u op t k = some ((true, none),
        withCounts st0 (u ++ ":" ++ op) ((List.range (k + 1)).map t)) := by
  intro k
  induction k with
  | zero =>
    intro hk
    show checkRateLimit st0 u op 1 (t 0) = _
    rw [checkRateLimit_allowed st0 u op (t 0) L W [] hbl hlim hcounts
      (by intro ts hts; simp at hts) (by simpa using hL)]
    simp [List.range_succ]
  | succ k ih =>
    intro hk
    have hk' : k < L.toNat := Nat.lt_of_succ_lt hk
    have hkeep : ∀ ts ∈ (List.range (k + 1)).map t, t (k + 1) - W < ts := by
      intro ts hts
      rcases List.mem_map.mp hts with ⟨i, hi, rfl⟩
      have hi' : i < k + 1 := List.mem_range.mp hi
      have h1 : t (k + 1) ≤ t L.toNat := hmono (k + 1) L.toNat (by omega) (by omega)
      have h2 : t 0 ≤ t i := hmono 0 i (by omega) (by omega)
      omega
    have hle : (((List.range (k + 1)).map t).length : Int) + 1 ≤ L := by
      simp only [List.length_map, List.length_range]
      omega
    have hstep := checkRateLimit_allowed (withCounts st0 (u ++ ":" ++ op)
        ((List.range (k + 1)).map t)) u op (t (k + 1)) L W ((List.range (k + 1)).map t)
        hbl hlim (counts_withCounts_self _ _ _) hkeep hle
    show (match callsFrom st0 u op t k with
      | some r => checkRateLimit r.2 u op 1 (t (k + 1))
      | none => none) = _
    rw [ih hk']
    show checkRateLimit (withCounts st0 (u ++ ":" ++ op) ((List.range (k + 1)).map t))
      u op 1 (t (k + 1)) = _
    rw [hstep, withCounts_withCounts]
    have hrange : (List.range (k + 1)).map t ++ [t (k + 1)] = (List.range (k + 2)).map t := by
      have hr : List.range (k + 2) = List.range (k + 1) ++ [k + 1] := List.range_succ (k + 1)
      rw [hr, List.map_append]
      rfl
    rw [hrange]

/-- Claim C6: sliding-window rate limiting is exact.  For a user with no
active blacklist entry and an empty window for `(user, op)` whose limit is
`L` over `W` seconds, at nondecreasing instants all falling within `W`
seconds of the first call: each of the first `L` unit-cost calls is
allowed, the `L+1`-st call is denied, and the denial's retry-after value is
at most `W`. -/
theorem rateLimiter_window_exact (st0 : RateLimiter) (u op : String) (t : Nat → Int)
    (L W : Int) (hL : 1 ≤ L)
    (hbl : lookupA st0.blacklist u = none)
    (hlim : lookupLimits st0 op = (L, W))
    (hcounts : counts st0 (u ++ ":" ++ op) = [])
    (hmono : ∀ i j, i ≤ j → j ≤ L.toNat → t i ≤ t j)
    (hwin : t L.toNat - t 0 < W) :
    (∀ k, k < L.toNat → ∃ st', callsFrom st0 u op t k = some ((true, none), st')) ∧
    (∃ r st', callsFrom st0 u op t L.toNat = some ((false, some r), st') ∧ r ≤ W) := by
  have hall := callsFrom_allowed st0 u op t L W hL hbl hlim hcounts hmono hwin
  constructor
  · intro k hk
    exact ⟨_, hall k hk⟩
  · obtain ⟨m, hm⟩ : ∃ m, L.toNat = m + 1 := ⟨L.toNat - 1, by omega⟩
    have hshape : ((List.range (m + 1)).map t) = t 0 :: ((List.range m).map (t ∘ Nat.succ)) := by
      rw [List.range_succ_eq_map]
      simp [List.map_map]
    have hkeep : ∀ ts ∈ t 0 :: ((List.range m).map (t ∘ Nat.succ)), t (m + 1) - W < ts := by
      intro ts hts
      rw [← hshape] at hts
      rcases List.mem_map.mp hts with ⟨i, hi, rfl⟩
      have hi' : i < m + 1 := List.mem_range.mp hi
      have h1 : t (m + 1) ≤ t L.toNat := hmono (m + 1) L.toNat (by omega) (by omega)
      have h2 : t 0 ≤ t i := hmono 0 i (by omega) (by omega)
      have h3 : t L.toNat - t 0 < W := hwin
      omega
    have hgt : (((t 0 :: ((List.range m).map (t ∘ Nat.succ))).length : Int) + 1 > L) := by
      simp only [List.length_cons, List.length_map, List.length_range]
      omega
    obtain ⟨st', hden⟩ := checkRateLimit_denied
      (withCounts st0 (u ++ ":" ++ op) ((List.range (m + 1)).map t)) u op (t (m + 1)) L W
      (t 0) ((List.range m).map (t ∘ Nat.succ)) hbl hlim
      ((counts_withCounts_self _ _ _).trans hshape) hkeep hgt
    have hrun : callsFrom st0 u op t (m + 1) =
        checkRateLimit (withCounts st0 (u ++ ":" ++ op) ((List.range (m + 1)).map t))
          u op 1 (t (m + 1)) := by
      show (match callsFrom st0 u op t m with
        | some r => checkRateLimit r.2 u op 1 (t (m + 1))
        | none => none) = _
      rw [hall m (by omega)]
    refine ⟨W - pySeconds (t (m + 1) - t 0), st', ?_, ?_⟩
    · rw [hm, hrun, hden]
    · have h0 := pySeconds_nonneg (t (m + 1) - t 0)
      omega

/-- Witness for C6: user "u1", operation "register" (limit 3 per 3600 s) on
a fresh limiter, calls at seconds 0, 1, 2, 3: the third call is allowed, the
fourth is denied with a retry-after of at most 3600.  Derived by applying
the theorem. -/
theorem rateLimiter_window_exact_witness :
    ((callsFrom rateLimiterInit "u1" "register" (fun i => (i : Int)) 2).map Prod.fst
        = some (true, none)) ∧
    (Option.all (fun p => p.1.1 == false && decide (p.1.2.getD 0 ≤ 3600))
        (callsFrom rateLimiterInit "u1" "register" (fun i => (i : Int)) 3) = true) := by
  have h := rateLimiter_window_exact rateLimiterInit "u1" "register" (fun i => (i : Int))
    3 3600 (by decide) rfl (by decide) rfl
    (fun i j hij _ => Int.ofNat_le.mpr hij) (by decide)
  constructor
  · rcases h.1 2 (by decide) with ⟨st', heq⟩
    rw [heq]
    rfl
  · rcases h.2 with ⟨r, st', heq, hle⟩
    have h3 : (3 : Int).toNat = 3 := rfl
    rw [h3] at heq
    rw [heq]
    simp [hle]

/-- Counterexample to claim C10: on a fresh limiter, a single call with
`cost = 21` for operation "chat" (limit 20) is denied with an *empty*
pruned window, and the retry-after computation `request_counts[key][0]`
raises `IndexError` — the call does not return an `(allowed, message)`
pair. -/
theorem checkRateLimit_empty_window_crash :
    checkRateLimit rateLimiterInit "u" "chat" 21 0 = none := by decide

/-- Claim C10 as amended: `check_rate_limit` returns an
`(allowed, message)` result for every cost whenever the pruned window is
nonempty or `current_count + cost` stays within the limit; only the
remaining case — empty pruned window and a cost alone exceeding the limit —
reaches the `IndexError` of the denied branch. -/
theorem checkRateLimit_total_unless_empty_deny (st : RateLimiter) (u op : String)
    (cost now : Int)
    (h : (counts st (u ++ ":" ++ op)).filter
          (fun ts => decide (now - (lookupLimits st op).2 < ts)) ≠ [] ∨
        (((counts st (u ++ ":" ++ op)).filter
          (fun ts => decide (now - (lookupLimits st op).2 < ts))).length : Int) + cost
          ≤ (lookupLimits st op).1) :
    (checkRateLimit st u op cost now).isSome = true := by
  have hbody : ∀ st2 : RateLimiter, st2.requestCounts = st.requestCounts →
      st2.limits = st.limits → (checkRateLimitBody st2 u op cost now).isSome = true := by
    intro st2 hrc hlims
    have hc : counts st2 (u ++ ":" ++ op) = counts st (u ++ ":" ++ op) := by
      simp [counts, hrc]
    have hl : lookupLimits st2 op = lookupLimits st op := by
      simp [lookupLimits, hlims]
    simp only [checkRateLimitBody, hc, hl]
    by_cases hcond : (((counts st (u ++ ":" ++ op)).filter
        (fun ts => decide (now - (lookupLimits st op).2 < ts))).length : Int) + cost
          > (lookupLimits st op).1
    · rw [if_pos hcond]
      cases hcl : (counts st (u ++ ":" ++ op)).filter
          (fun ts => decide (now - (lookupLimits st op).2 < ts)) with
      | nil =>
        exfalso
        rcases h with h | h
        · exact h hcl
        · rw [hcl] at hcond
          simp at hcond
          omega
      | cons a as => simp
    · rw [if_neg hcond]
      simp
  unfold checkRateLimit
  cases hbl : lookupA st.blacklist u with
  | none => exact hbody st rfl rfl
  | some bl =>
    by_cases hb : now < bl.1
    · show (if now < bl.1 then some ((false, some (pySeconds (bl.1 - now))), st)
        else checkRateLimitBody ⟨st.requestCounts, st.limits, removeA st.blacklist u⟩
          u op cost now).isSome = true
      rw [if_pos hb]
      rfl
    · show (if now < bl.1 then some ((false, some (pySeconds (bl.1 - now))), st)
        else checkRateLimitBody ⟨st.requestCounts, st.limits, removeA st.blacklist u⟩
          u op cost now).isSome = true
      rw [if_neg hb]
      exact hbody ⟨st.requestCounts, st.limits, removeA st.blacklist u⟩ rfl rfl

/-- Witness for the amended C10: a fresh limiter, operation "chat", unit
cost — the call returns a result. -/
theorem checkRateLimit_total_unless_empty_deny_witness :
    (checkRateLimit rateLimiterInit "u" "chat" 1 0).isSome = true :=
  checkRateLimit_total_unless_empty_deny rateLimiterInit "u" "chat" 1 0 (Or.inr (by decide))

/-! ## Error sanitizer — `sanitize_error_message` in `main.py` (lines 44-74)

Strings are processed as their character lists.  The regex engine of the
source is represented by direct left-to-right scanners implementing the
three concrete patterns of the function (`https?://[^\s]+`,
`api[_-]?key[=:]\s*\S+` case-insensitive, `sk-[^\s]+`); `\s` is the ASCII
whitespace class and `.lower()` is per-character ASCII lowering, faithful on
the ASCII messages at issue. -/

/-- The `SENSITIVE_SERVICES` list (main.py, lines 44-54). -/
def SENSITIVE_SERVICES : List String :=
  ["gemini", "Gemini", "GEMINI", "google", "Google", "GOOGLE",
   "jina", "Jina", "JINA", "voyage", "Voyage", "VOYAGE",
   "bge", "BGE", "cohere", "Cohere", "COHERE",
   "openai", "OpenAI", "OPENAI", "anthropic", "Anthropic", "ANTHROPIC",
   "claude", "Claude", "CLAUDE"]

/-- The generic substitute message. -/
def genericErrorMessage : String := "An internal error occurred. Please try again."

/-- The keywords of the final check (main.py, line 71). -/
def KEYWORDS : List String := ["traceback", "stack", "exception", "raise"]

/-- Python `str.lower()` (ASCII). -/
def lowerStr (s : String) : String := ⟨s.data.map Char.toLower⟩

/-- `needle in hay` on character lists: some suffix of `hay` starts with
`needle`. -/
def subStr (needle : List Char) : List Char → Bool
  | [] => needle.isEmpty
  | c :: t => needle.isPrefixOf (c :: t) || subStr needle t

/-- Python `needle in hay` substring containment. -/
def containsStr (hay needle : String) : Bool := subStr needle.data hay.data

/-- The regex `\s` class (ASCII range). -/
def isPySpace (c : Char) : Bool :=
  c == ' ' || c == '\t' || c == '\n' || c == '\r' || c == '\x0b' || c == '\x0c'

/-- Match `https?://[^\s]+` at the head of the list (the literal scheme,
lower-case as written in the pattern, then a nonempty greedy run of
non-space characters); returns the suffix after the match. -/
def urlMatch (cs : List Char) : Option (List Char) :=
  let tryScheme := fun (scheme : List Char) =>
    if scheme.isPrefixOf cs then
      let rest := cs.drop scheme.length
      let tok := rest.takeWhile (fun c => !isPySpace c)
      if tok.isEmpty then none else some (rest.drop tok.length)
    else none
  match tryScheme "https://".data with
  | some r => some r
  | none => tryScheme "http://".data

/-- Case-insensitive character comparison against a lower-case letter. -/
def lowerEq (c d : Char) : Bool := c.toLower == d

/-- Match `api[_-]?key[=:]\s*\S+` (IGNORECASE) at the head of the list.
The optional `[_-]` is taken greedily; since `k` can never equal `_` or
`-`, this agrees with the backtracking regex. -/
def apiKeyMatch (cs : List Char) : Option (List Char) :=
  match cs with
  | a :: p :: i :: rest1 =>
    if lowerEq a 'a' && lowerEq p 'p' && lowerEq i 'i' then
      let rest2 := match rest1 with
        | c :: t => if c == '_' || c == '-' then t else rest1
        | [] => rest1
      match rest2 with
      | k :: e :: y :: rest3 =>
        if lowerEq k 'k' && lowerEq e 'e' && lowerEq y 'y' then
          match rest3 with
          | sep :: rest4 =>
            if sep == '=' || sep == ':' then
              let rest5 := rest4.dropWhile isPySpace
              let tok := rest5.takeWhile (fun c => !isPySpace c)
              if tok.isEmpty then none else some (rest5.drop tok.length)
            else none
          | [] => none
        else none
      | _ => none
    else none
  | _ => none

/-- Match `sk-[^\s]+` at the head of the list. -/
def skMatch (cs : List Char) : Option (List Char) :=
  match cs with
  | s :: k :: d :: rest =>
    if s == 's' && k == 'k' && d == '-' then
      let tok := rest.takeWhile (fun c => !isPySpace c)
      if tok.isEmpty then none else some (rest.drop tok.length)
    else none
  | _ => none

/-- `re.sub` as a left-to-right scan: at each position try `matchAt`; on a
match emit `repl` and continue after the consumed characters, otherwise emit
the character and advance.  `fuel` bounds the recursion; callers pass the
input length and every matcher consumes at least one character, so the fuel
never runs out. -/
def reSub (matchAt : List Char → Option (List Char)) (repl : List Char) :
    Nat → List Char → List Char
  | 0, cs => cs
  | _ + 1, [] => []
  | fuel + 1, c :: cs =>
    match matchAt (c :: cs) with
    | some rest => repl ++ reSub matchAt repl fuel rest
    | none => c :: reSub matchAt repl fuel cs

/-- `sanitize_error_message` (main.py, lines 56-74): empty messages become
the generic message; a message mentioning any sensitive service
(case-insensitively) becomes the generic message; otherwise URLs, api-key
assignments and `sk-` keys are replaced by placeholders, and the result is
replaced by the generic message when it exceeds 200 characters or the
*original* lower-cased message mentions a traceback keyword. -/
def sanitizeErrorMessage (msg : String) : String :=
  if msg = "" then genericErrorMessage
  else
    let errorLower := lowerStr msg
    if SENSITIVE_SERVICES.any (fun s => containsStr errorLower (lowerStr s)) then
      genericErrorMessage
    else
      let m1 := reSub urlMatch "[URL_REMOVED]".data msg.data.length msg.data
      let m2 := reSub apiKeyMatch "[API_KEY_REMOVED]".data m1.length m1
      let m3 := reSub skMatch "[API_KEY_REMOVED]".data m2.length m2
      if m3.length > 200 || KEYWORDS.any (fun kw => containsStr errorLower kw) then
        genericErrorMessage
      else ⟨m3⟩

/-- Counterexample to claim C7: a message carrying a Bearer token and an
upper-case-scheme URL passes through the sanitizer verbatim — neither the
token nor the URL is removed, and no generic substitution happens. -/
theorem sanitize_bearer_counterexample :
    sanitizeErrorMessage "Auth failed: Bearer abc123 at HTTP://X.Y/K"
        = "Auth failed: Bearer abc123 at HTTP://X.Y/K" ∧
    containsStr "Auth failed: Bearer abc123 at HTTP://X.Y/K" "Bearer abc123" = true := by
  constructor
  · decide
  · decide

/-- Claim C7 as amended: an empty message, and any message mentioning a
provider brand case-insensitively, is replaced whole by the generic
internal-error message; lower-case-scheme http(s) URLs, `api_key=...`
assignments and `sk-` keys are rewritten to redaction placeholders (shown at
representative inputs); Bearer tokens and upper-case-scheme URLs are not
redacted and can reach the client. -/
theorem sanitize_amended (msg : String) (svc : String)
    (hs : svc ∈ SENSITIVE_SERVICES)
    (hc : containsStr (lowerStr msg) (lowerStr svc) = true) :
    sanitizeErrorMessage msg = genericErrorMessage ∧
    sanitizeErrorMessage "" = genericErrorMessage ∧
    sanitizeErrorMessage "fail https://api.example.com/v1?key=zz now"
        = "fail [URL_REMOVED] now" ∧
    sanitizeErrorMessage "leaked sk-abc123 token" = "leaked [API_KEY_REMOVED] token" ∧
    sanitizeErrorMessage "bad api_key=SECRET value" = "bad [API_KEY_REMOVED] value" := by
  refine ⟨?_, rfl, by decide, by decide, by decide⟩
  by_cases hm : msg = ""
  · simp [sanitizeErrorMessage, hm]
  · have hany : SENSITIVE_SERVICES.any
        (fun s => containsStr (lowerStr msg) (lowerStr s)) = true :=
      List.any_eq_true.mpr ⟨svc, hs, hc⟩
    simp only [sanitizeErrorMessage]
    rw [if_neg hm, if_pos hany]

/-- Witness for the amended C7: the brand branch instantiated at a concrete
message mentioning OpenAI. -/
theorem sanitize_amended_witness :
    sanitizeErrorMessage "OpenAI quota exceeded" = genericErrorMessage ∧
    sanitizeErrorMessage "" = genericErrorMessage ∧
    sanitizeErrorMessage "fail https://api.example.com/v1?key=zz now"
        = "fail [URL_REMOVED] now" ∧
    sanitizeErrorMessage "leaked sk-abc123 token" = "leaked [API_KEY_REMOVED] token" ∧
    sanitizeErrorMessage "bad api_key=SECRET value" = "bad [API_KEY_REMOVED] value" :=
  sanitize_amended "OpenAI quota exceeded" "openai" (by decide) (by decide)

end DocuMind
